import Mathlib

/-
Shallow embedding of src/react-app/src/pages/JoinNetwork/index.js.

The component keeps React state `{urls, url}`, renders an uncontrolled
text input (the DOM input value is separate from the tracked `url`
state), and talks to two HTTP endpoints:

  get_peers     : fetch('/peers', {method: "GET"})
                    .then(res => res.json())
                    .then(data => this.setState({urls: data}))
  join_network  : fetch('/joinNetwork', {method: "POST",
                    body: JSON.stringify({url: this.state.url}),
                    headers: {"Content-Type": "application/json"}})
                    .then(res => { event.preventDefault(); event.target.reset(); })
  componentDidMount = get_peers
  render: onChange sets state.url to the input text; peers render as
          one <p> per entry of state.urls, in order.

JavaScript `fetch` resolves its promise for every received HTTP
response, whatever the status code; it rejects only on network
failure.  `res.json()` rejects when the body is not valid JSON.  A
`.then` callback runs exactly when its promise resolves.  The model
below therefore distinguishes three outcomes for the /peers fetch
(rejected, response whose body fails to parse, response whose body
parses to a value) and two for the /joinNetwork fetch (rejected,
resolved with some status).
-/

namespace JoinNetwork

/-- One rendered peer entry: the `<p>{url}</p>` element of render. -/
inductive RNode where
  | p (text : String)
deriving DecidableEq, Repr

/-- An HTTP request as issued by `fetch(path, options)`. -/
structure Request where
  method : String
  path : String
  body : Option String
  headers : List (String × String)
deriving DecidableEq, Repr

/-- One form submission: the url captured from `this.state.url` at submit
time, and the observable effects on its DOM event (`preventDefault`,
`target.reset`).  `settled` records whether the POST promise has settled. -/
structure Submission where
  sentUrl : String
  defaultPrevented : Bool
  targetReset : Bool
  settled : Bool
deriving DecidableEq, Repr

/-- Outcome of the `/peers` fetch chain: network rejection, a response
whose body is not valid JSON (`res.json()` rejects), or a response whose
body parses to an array of strings.  The status code is carried but the
source never inspects it. -/
inductive PeersOutcome where
  | rejected
  | malformed (status : Nat)
  | parsed (status : Nat) (data : List String)
deriving DecidableEq, Repr

/-- Outcome of the `/joinNetwork` fetch: network rejection, or a response
with some status code (the source never inspects status or body). -/
inductive JoinOutcome where
  | rejected
  | resolved (status : Nat)
deriving DecidableEq, Repr

/-- The world: the component's React state (`urls`, `url`), the DOM
value of the uncontrolled input, the log of issued requests, how many
`/peers` fetches are in flight, the submissions with their events, and a
ghost log of the data values delivered by `/peers` responses. -/
structure World where
  mounted : Bool
  urls : List String
  url : String
  inputValue : String
  requests : List Request
  pendingPeers : Nat
  submissions : List Submission
  peersResponses : List (List String)
deriving DecidableEq, Repr

/-- Initial state: `state = {urls: [], url: ''}`, nothing issued yet. -/
def initWorld : World :=
  { mounted := false, urls := [], url := "", inputValue := "",
    requests := [], pendingPeers := 0, submissions := [],
    peersResponses := [] }

/-- Lower-case hex digit, as produced by JSON.stringify's escapes. -/
def hexDigit (n : Nat) : Char :=
  if n < 10 then Char.ofNat (48 + n) else Char.ofNat (87 + n)

/-- Escaping of one character inside a JSON string literal, following
JSON.stringify (ECMA-262 QuoteJSONString). -/
def jsonEscapeChar (c : Char) : String :=
  if c = '"' then "\\\""
  else if c = '\\' then "\\\\"
  else if c = Char.ofNat 8 then "\\b"
  else if c = Char.ofNat 9 then "\\t"
  else if c = Char.ofNat 10 then "\\n"
  else if c = Char.ofNat 12 then "\\f"
  else if c = Char.ofNat 13 then "\\r"
  else if c.toNat < 32 then
    String.mk ['\\', 'u', '0', '0', hexDigit (c.toNat / 16), hexDigit (c.toNat % 16)]
  else String.singleton c

/-- JSON.stringify of a string value. -/
def jsonStringifyString (s : String) : String :=
  "\"" ++ String.join (s.data.map jsonEscapeChar) ++ "\""

/-- JSON.stringify of the object `\x7burl: u\x7d` built in join_network. -/
def jsonStringifyUrlObj (u : String) : String :=
  "\x7b\"url\":" ++ jsonStringifyString u ++ "\x7d"

/-- The request issued by get_peers: `fetch('/peers', {method: "GET"})`. -/
def peersRequest : Request :=
  { method := "GET", path := "/peers", body := none, headers := [] }

/-- The request issued by join_network for state url `u`. -/
def joinRequest (u : String) : Request :=
  { method := "POST", path := "/joinNetwork",
    body := some (jsonStringifyUrlObj u),
    headers := [("Content-Type", "application/json")] }

/-- componentDidMount: calls get_peers, which issues the GET /peers
fetch; the promise is now in flight. -/
def mountStep (w : World) : World :=
  { w with mounted := true,
           requests := w.requests ++ [peersRequest],
           pendingPeers := w.pendingPeers + 1 }

/-- The input's onChange handler: `this.setState({url: e.target.value})`.
Typing also updates the DOM value of the uncontrolled input. -/
def inputStep (v : String) (w : World) : World :=
  { w with url := v, inputValue := v }

/-- Form submission: join_network reads `this.state.url`, issues the
POST /joinNetwork fetch, and the submission's event awaits the `.then`. -/
def submitStep (w : World) : World :=
  { w with requests := w.requests ++ [joinRequest w.url],
           submissions := w.submissions ++
             [{ sentUrl := w.url, defaultPrevented := false,
                targetReset := false, settled := false }] }

/-- Settling of the /peers fetch chain.  On rejection or a
JSON-parse failure no callback body runs (there is no catch handler).
On a parsed body `data`, the second `.then` runs
`this.setState({urls: data})` — the status code is never consulted. -/
def peersSettleStep (o : PeersOutcome) (w : World) : World :=
  match o with
  | .rejected => { w with pendingPeers := w.pendingPeers - 1 }
  | .malformed _ => { w with pendingPeers := w.pendingPeers - 1 }
  | .parsed _ data =>
      { w with urls := data,
               peersResponses := w.peersResponses ++ [data],
               pendingPeers := w.pendingPeers - 1 }

/-- The `.then` attached to the /joinNetwork fetch, acting on the
submission's event: when the fetch resolves (any status) it runs
`event.preventDefault(); event.target.reset()`; when the fetch rejects
the callback never runs. -/
def join_then (o : JoinOutcome) (sub : Submission) : Submission :=
  match o with
  | .rejected => sub
  | .resolved _ => { sub with defaultPrevented := true, targetReset := true }

/-- Settling of the i-th submission's POST fetch.  `event.target.reset()`
resets the form, clearing the DOM value of the uncontrolled input; on
rejection nothing runs and the input keeps its value. -/
def joinSettleStep (i : Nat) (o : JoinOutcome) (w : World) : World :=
  match w.submissions.get? i with
  | none => w
  | some sub =>
      if sub.settled then w
      else
        { w with
            submissions := w.submissions.set i { join_then o sub with settled := true },
            inputValue := match o with
              | .rejected => w.inputValue
              | .resolved _ => "" }

/-- The peer list part of render: `this.state.urls.map(url => <p>{url}</p>)`. -/
def renderedPeers (w : World) : List RNode :=
  w.urls.map (fun u => RNode.p u)

/-- The component's React state, as the pair (urls, url). -/
def compState (w : World) : List String × String :=
  (w.urls, w.url)

/-- How many GET /peers requests have been issued so far. -/
def countPeersRequests (w : World) : Nat :=
  (w.requests.filter (fun r => r.method == "GET" && r.path == "/peers")).length

/-- One atomic event of the component's event-driven execution. -/
inductive Step : World → World → Prop where
  | mount (w : World) : w.mounted = false → Step w (mountStep w)
  | input (w : World) (v : String) : w.mounted = true → Step w (inputStep v w)
  | submit (w : World) : w.mounted = true → Step w (submitStep w)
  | peersSettle (w : World) (o : PeersOutcome) :
      0 < w.pendingPeers → Step w (peersSettleStep o w)
  | joinSettle (w : World) (i : Nat) (o : JoinOutcome) :
      Step w (joinSettleStep i o w)

/-- Reachability from the initial state. -/
def Reachable (w : World) : Prop :=
  Relation.ReflTransGen Step initWorld w

/-- Invariant: GET /peers is issued exactly once, at mount; `urls` is
the data of the most recent /peers response, or `[]` before any. -/
def Inv (w : World) : Prop :=
  countPeersRequests w = (if w.mounted then 1 else 0) ∧
  w.urls = (w.peersResponses.getLast?).getD []

lemma inv_init : Inv initWorld := by
  constructor <;> simp [initWorld, countPeersRequests]

lemma inv_step (w w' : World) (h : Step w w') (hi : Inv w) : Inv w' := by
  obtain ⟨h1, h2⟩ := hi
  cases h with
  | mount hm =>
      constructor
      · simp [hm] at h1
        simp [mountStep, countPeersRequests, List.filter_append, peersRequest] at h1 ⊢
        exact h1
      · simpa [mountStep] using h2
  | input v hv =>
      exact ⟨by simpa [inputStep, countPeersRequests] using h1,
             by simpa [inputStep] using h2⟩
  | submit hv =>
      constructor
      · simpa [submitStep, countPeersRequests, List.filter_append, joinRequest] using h1
      · simpa [submitStep] using h2
  | peersSettle o hp =>
      cases o with
      | rejected =>
          exact ⟨by simpa [peersSettleStep, countPeersRequests] using h1,
                 by simpa [peersSettleStep] using h2⟩
      | malformed s =>
          exact ⟨by simpa [peersSettleStep, countPeersRequests] using h1,
                 by simpa [peersSettleStep] using h2⟩
      | parsed s data =>
          constructor
          · simpa [peersSettleStep, countPeersRequests] using h1
          · simp [peersSettleStep, List.getLast?_concat]
  | joinSettle i o =>
      unfold joinSettleStep
      cases hs : w.submissions.get? i with
      | none => exact ⟨h1, h2⟩
      | some sub =>
          by_cases hset : sub.settled
          · simp [hset]; exact ⟨h1, h2⟩
          · simp [hset]
            exact ⟨by simpa [countPeersRequests] using h1, h2⟩

lemma inv_reachable (w : World) (h : Reachable w) : Inv w := by
  induction h with
  | refl => exact inv_init
  | tail _ hstep ih => exact inv_step _ _ hstep ih

lemma reachable_mount : Reachable (mountStep initWorld) :=
  Relation.ReflTransGen.single (Step.mount initWorld rfl)

end JoinNetwork

namespace JoinNetwork

/-- Claim C1, counterexample: when the POST /joinNetwork fetch rejects
(network failure), the `.then` callback never runs, so the default form
navigation is not suppressed and the visible input is not cleared —
contradicting "regardless of the response status … also when the fetch
rejects". -/
theorem c1_counterexample :
    (join_then JoinOutcome.rejected
      { sentUrl := "a", defaultPrevented := false,
        targetReset := false, settled := false }).defaultPrevented = false ∧
    (join_then JoinOutcome.rejected
      { sentUrl := "a", defaultPrevented := false,
        targetReset := false, settled := false }).targetReset = false ∧
    (joinSettleStep 0 JoinOutcome.rejected
      (submitStep (inputStep "a" (mountStep initWorld)))).inputValue = "a" := by
  refine ⟨rfl, rfl, ?_⟩
  rfl

/-- Claim C1, amended: when the POST /joinNetwork fetch resolves — with
any status, 2xx or not — the handler calls preventDefault and resets the
form, clearing the visible input; when the fetch rejects, neither
effect happens. -/
theorem c1_join_completion (w : World) (v : String) (s : Nat) (sub : Submission) :
    (join_then (JoinOutcome.resolved s) sub).defaultPrevented = true ∧
    (join_then (JoinOutcome.resolved s) sub).targetReset = true ∧
    join_then JoinOutcome.rejected sub = sub ∧
    (joinSettleStep w.submissions.length (JoinOutcome.resolved s)
      (submitStep (inputStep v w))).inputValue = "" := by
  refine ⟨rfl, rfl, rfl, ?_⟩
  simp [joinSettleStep, submitStep, inputStep, List.getElem?_concat_length]

/-- Claim C2, counterexample: after a submission completes (fetch
resolved), the tracked `url` state still holds the submitted value "a";
it is not reset to the empty string. -/
theorem c2_counterexample :
    (joinSettleStep 0 (JoinOutcome.resolved 200)
      (submitStep (inputStep "a" (mountStep initWorld)))).url = "a" ∧
    (joinSettleStep 0 (JoinOutcome.resolved 200)
      (submitStep (inputStep "a" (mountStep initWorld)))).url ≠ "" := by
  constructor
  · rfl
  · decide

/-- Claim C2, amended: form submission does not reset the tracked `url`
state: neither the submit handler nor the completion of the POST fetch
changes it; only the visible input is cleared (by `event.target.reset()`
on resolution). -/
theorem c2_url_state_not_reset (w : World) (i : Nat) (o : JoinOutcome) :
    (submitStep w).url = w.url ∧ (joinSettleStep i o w).url = w.url := by
  constructor
  · rfl
  · unfold joinSettleStep
    cases hs : w.submissions.get? i with
    | none => rfl
    | some sub =>
        by_cases hset : sub.settled
        · simp [hset]
        · simp [hset]

/-- Claim C3: a form submission after a last input change event with
value `v` issues exactly one request: POST /joinNetwork, body the JSON
serialization of the object with field "url" bound to `v`, with header
Content-Type: application/json.  The last conjunct exhibits the
serialization on a concrete value. -/
theorem c3_submit_posts_join (w : World) (v : String) :
    (submitStep (inputStep v w)).requests =
      w.requests ++
        [{ method := "POST", path := "/joinNetwork",
           body := some (jsonStringifyUrlObj v),
           headers := [("Content-Type", "application/json")] }] ∧
    jsonStringifyUrlObj "http://a:3000" = "\x7b\"url\":\"http://a:3000\"\x7d" := by
  constructor
  · rfl
  · rfl

/-- Claim C4: in every reachable state, exactly one GET /peers request
has been issued when the component is mounted (and none before); and
whenever a /peers response delivers an array of strings, the rendered
peer list is exactly those strings, in order — in particular a response
["a","b"] renders exactly the two entries "a" then "b". -/
theorem c4_mount_fetch_and_render (w w2 : World) (h : Reachable w)
    (s : Nat) (data : List String) :
    countPeersRequests w = (if w.mounted then 1 else 0) ∧
    renderedPeers (peersSettleStep (PeersOutcome.parsed s data) w2) =
      data.map RNode.p ∧
    renderedPeers (peersSettleStep (PeersOutcome.parsed 200 ["a", "b"]) w2) =
      [RNode.p "a", RNode.p "b"] := by
  refine ⟨(inv_reachable w h).1, ?_, ?_⟩ <;> simp [renderedPeers, peersSettleStep]

/-- Witness for C4 at the concrete reachable state just after mount. -/
theorem c4_witness :
    countPeersRequests (mountStep initWorld) =
      (if (mountStep initWorld).mounted then 1 else 0) ∧
    renderedPeers (peersSettleStep (PeersOutcome.parsed 200 ["a", "b"])
      (mountStep initWorld)) = (["a", "b"] : List String).map RNode.p ∧
    renderedPeers (peersSettleStep (PeersOutcome.parsed 200 ["a", "b"])
      (mountStep initWorld)) = [RNode.p "a", RNode.p "b"] :=
  c4_mount_fetch_and_render (mountStep initWorld) (mountStep initWorld)
    reachable_mount 200 ["a", "b"]

/-- Claim C5: a /peers response delivering the empty array renders no
peer entries. -/
theorem c5_empty_peers_renders_nothing (w : World) (s : Nat) :
    renderedPeers (peersSettleStep (PeersOutcome.parsed s []) w) = [] := by
  simp [renderedPeers, peersSettleStep]

/-- Claim C6: after any input change event the tracked `url` state equals
the value carried by that event; hence after any sequence of change
events it equals the value of the most recent one. -/
theorem c6_url_tracks_input (w : World) (vs : List String) (v : String) :
    (inputStep v w).url = v ∧
    ((vs ++ [v]).foldl (fun a b => inputStep b a) w).url = v := by
  constructor
  · rfl
  · simp [List.foldl_append, inputStep]

/-- Claim C7: in every reachable state `urls` equals the data of the
most recent /peers response (or the initial empty list before any), and
neither a form submission nor the completion of a join fetch modifies
`urls`. -/
theorem c7_urls_latest_response (w : World) (h : Reachable w)
    (i : Nat) (o : JoinOutcome) :
    w.urls = (w.peersResponses.getLast?).getD [] ∧
    (joinSettleStep i o w).urls = w.urls ∧
    (submitStep w).urls = w.urls := by
  refine ⟨(inv_reachable w h).2, ?_, rfl⟩
  unfold joinSettleStep
  cases hs : w.submissions.get? i with
  | none => rfl
  | some sub =>
      by_cases hset : sub.settled
      · simp [hset]
      · simp [hset]

/-- Witness for C7 at the concrete reachable state just after mount. -/
theorem c7_witness :
    (mountStep initWorld).urls =
      ((mountStep initWorld).peersResponses.getLast?).getD [] ∧
    (joinSettleStep 0 JoinOutcome.rejected (mountStep initWorld)).urls =
      (mountStep initWorld).urls ∧
    (submitStep (mountStep initWorld)).urls = (mountStep initWorld).urls :=
  c7_urls_latest_response (mountStep initWorld) reachable_mount 0
    JoinOutcome.rejected

/-- Claim C8, counterexample: a non-2xx /peers response (status 404)
whose body is the JSON array ["x"] is not left unhandled — fetch
resolves on any status, `res.json()` succeeds, and the state IS changed:
`urls` goes from [] to ["x"].  This contradicts "the component state is
left unchanged by the failed operation" for non-2xx responses. -/
theorem c8_counterexample :
    (mountStep initWorld).urls = [] ∧
    (peersSettleStep (PeersOutcome.parsed 404 ["x"]) (mountStep initWorld)).urls
      = ["x"] := by
  constructor
  · rfl
  · rfl

/-- Claim C8, amended: rejected fetches and malformed-JSON bodies on
either endpoint run no handler and leave the component state (urls, url)
unchanged, with no feedback; but a non-2xx response is not treated as a
failure: on POST /joinNetwork the `.then` still runs (changing no
component state), and on GET /peers a JSON array body still replaces
`urls`, whatever the status.  No error-handling branch exists anywhere. -/
theorem c8_failures_unhandled (w : World) (i s : Nat) (data : List String)
    (sub : Submission) :
    compState (peersSettleStep PeersOutcome.rejected w) = compState w ∧
    compState (peersSettleStep (PeersOutcome.malformed s) w) = compState w ∧
    compState (joinSettleStep i JoinOutcome.rejected w) = compState w ∧
    compState (joinSettleStep i (JoinOutcome.resolved s) w) = compState w ∧
    join_then JoinOutcome.rejected sub = sub ∧
    (peersSettleStep (PeersOutcome.parsed s data) w).urls = data := by
  refine ⟨rfl, rfl, ?_, ?_, rfl, rfl⟩ <;>
    · unfold joinSettleStep
      cases hs : w.submissions.get? i with
      | none => rfl
      | some sub2 =>
          by_cases hset : sub2.settled
          · simp [hset]
          · simp [hset, compState]

/-- Claim C9: completing a join submission leaves the tracked `url`
state unchanged while the visible input is cleared, so a second
submission with no intervening change event POSTs the same previous
url even though the input appears empty. -/
theorem c9_resubmit_sends_stale_url (w : World) (v : String) (s : Nat) :
    (joinSettleStep w.submissions.length (JoinOutcome.resolved s)
      (submitStep (inputStep v w))).url = v ∧
    (joinSettleStep w.submissions.length (JoinOutcome.resolved s)
      (submitStep (inputStep v w))).inputValue = "" ∧
    (submitStep (joinSettleStep w.submissions.length (JoinOutcome.resolved s)
      (submitStep (inputStep v w)))).requests.getLast? =
      some (joinRequest v) := by
  refine ⟨?_, ?_, ?_⟩ <;>
    simp [joinSettleStep, submitStep, inputStep, List.getElem?_concat_length,
          List.getLast?_concat]

/-- Claim C10: the initial state is urls = [] and url = '', rendering
zero peer entries; in every reachable state, `urls` is [] while no
/peers response has been delivered, and in general `urls` is either the
initial empty list or a value delivered by some /peers response. -/
theorem c10_initial_state (w : World) (h : Reachable w) :
    initWorld.urls = [] ∧ initWorld.url = "" ∧ renderedPeers initWorld = [] ∧
    (w.peersResponses = [] → w.urls = []) ∧
    (w.urls = [] ∨ w.urls ∈ w.peersResponses) := by
  have hu := (inv_reachable w h).2
  refine ⟨rfl, rfl, rfl, ?_, ?_⟩
  · intro hresp
    simp [hresp] at hu
    exact hu
  · rcases eq_or_ne w.peersResponses [] with hresp | hresp
    · left
      simp [hresp] at hu
      exact hu
    · right
      rw [hu, List.getLast?_eq_getLast _ hresp]
      exact List.getLast_mem hresp

/-- Witness for C10 at the concrete reachable initial state. -/
theorem c10_witness :
    initWorld.urls = [] ∧ initWorld.url = "" ∧ renderedPeers initWorld = [] ∧
    (initWorld.peersResponses = [] → initWorld.urls = []) ∧
    (initWorld.urls = [] ∨ initWorld.urls ∈ initWorld.peersResponses) :=
  c10_initial_state initWorld Relation.ReflTransGen.refl

end JoinNetwork
